import Mathlib

set_option maxRecDepth 100000

/-!
# Verification of `scripts/build_report_data.py`

A shallow embedding of the record-reconciliation pipeline of
`build_report_data.py`: field parsing (`parse_int`, the date parsers),
URL normalisation, the YouTube publish-date lookup with its cache, the
dedup identity key, the in-map merge rule, the date resolver, and the
cross-period reconciliation pass.  Strings are modelled as Lean
`String`/`List Char`; Python integers as `Int`/`Nat`; fallible Python
code that can raise an uncaught exception returns `Except Unit`.

Modelling conventions, noted where they matter:
* Python `str.strip()` is modelled as dropping ASCII whitespace on both
  ends (`pyStrip`); the claims under study never involve exotic Unicode
  whitespace.
* CPython `float(t)` string conversion is modelled by its grammar
  (optional sign, `inf`/`infinity`/`nan` keywords, decimal mantissa
  with optional fraction, exponent and digit-group underscores), with
  finite values kept *exactly* as a mantissa/power-of-ten pair instead
  of being rounded to an IEEE double, and with the overflow-to-infinity
  threshold of a double (`2^1024 - 2^970`, round-to-nearest) applied
  exactly.  Every property proved here is invariant under the omitted
  mantissa rounding: sign is preserved by rounding, and an integer that
  `int(float(..))` produced is exactly representable, so its decimal
  string re-reads to itself both in the model and on doubles.
-/

/-! ## Character-list helpers (models of Python `str` methods) -/

/-- Model of Python `str.strip()`: drop whitespace from both ends. -/
def pyStrip (l : List Char) : List Char :=
  ((l.dropWhile Char.isWhitespace).reverse.dropWhile Char.isWhitespace).reverse

/-- Model of Python `str.strip()` on a `String`. -/
def pyStripS (s : String) : String :=
  (pyStrip s.toList).asString

/-- Model of Python `str.lower()` (ASCII letters, which is all the code compares). -/
def sLower (s : String) : String :=
  (s.toList.map Char.toLower).asString

/-- Model of Python `str.split()` with no separator: split on whitespace runs,
dropping empty pieces. -/
def splitWSAux (acc : List Char) : List Char → List (List Char)
  | [] => if acc = [] then [] else [acc.reverse]
  | c :: r =>
    if c.isWhitespace then
      (if acc = [] then splitWSAux [] r else acc.reverse :: splitWSAux [] r)
    else splitWSAux (c :: acc) r

/-- Split a character list on whitespace (Python `str.split()`). -/
def splitWS (l : List Char) : List (List Char) := splitWSAux [] l

/-- Model of `t.replace(",", "")`: remove every comma. -/
def removeCommas (l : List Char) : List Char := l.filter (fun c => c != ',')

/-- Numeric value of an ASCII digit character. -/
def charVal (c : Char) : Nat := c.toNat - 48

/-- The character of a decimal digit. -/
def digitChar (k : Nat) : Char := Char.ofNat (48 + k)

/-! ## Digit runs (shared by Python `int()` and `float()` parsing)

CPython numeric literals allow single underscores strictly between
digits (`1_000`); a run is valid when it starts with a digit and every
underscore is followed by a digit.  `digRunAux`/`digRun` return the
value together with the number of digits consumed (the digit count is
what fixes the decimal scale of a fraction part). -/

/-- Continue a digit run: accumulated value, digit count, rest. -/
def digRunAux : Nat → Nat → List Char → Option (Nat × Nat)
  | acc, cnt, [] => some (acc, cnt)
  | acc, cnt, c :: cs =>
    if c.isDigit then digRunAux (acc * 10 + charVal c) (cnt + 1) cs
    else if c = '_' then
      match cs with
      | [] => none
      | d :: rest =>
        if d.isDigit then digRunAux (acc * 10 + charVal d) (cnt + 1) rest else none
    else none

/-- A full digit run (non-empty, underscores only between digits). -/
def digRun : List Char → Option (Nat × Nat)
  | [] => none
  | c :: cs => if c.isDigit then digRunAux (charVal c) 1 cs else none

/-- An optionally signed digit run, as used by an exponent part and by `int()`. -/
def parseSignedDigits (l : List Char) : Option Int :=
  match l with
  | [] => none
  | c :: r =>
    if c = '-' then (digRun r).map (fun p => -(p.1 : Int))
    else if c = '+' then (digRun r).map (fun p => (p.1 : Int))
    else (digRun (c :: r)).map (fun p => (p.1 : Int))

/-- Model of Python `int(s)` on a string: strip, optional sign, digit run. -/
def pyIntOfChars (l : List Char) : Option Int :=
  parseSignedDigits (pyStrip l)

/-! ## Model of CPython `float(t)` string conversion -/

/-- The value classes a parsed float can fall into.  A finite value is kept
exactly as `±mant * 10^scale`. -/
inductive PyFloat where
  | finite (neg : Bool) (mant : Nat) (scale : Int)
  | inf (neg : Bool)
  | nan
deriving DecidableEq

/-- Split at the first `e`/`E` (exponent marker), if any. -/
def splitOnExp : List Char → List Char × Option (List Char)
  | [] => ([], none)
  | c :: cs =>
    if c = 'e' ∨ c = 'E' then ([], some cs)
    else
      let p := splitOnExp cs
      (c :: p.1, p.2)

/-- Split at the first `.` (decimal point), if any. -/
def splitOnDot : List Char → List Char × Option (List Char)
  | [] => ([], none)
  | c :: cs =>
    if c = '.' then ([], some cs)
    else
      let p := splitOnDot cs
      (c :: p.1, p.2)

/-- Parse the mantissa `[digits][.digits]` (at least one digit in total);
returns the digit value with the fraction folded in, and the fraction's
digit count. -/
def parseMantissa (l : List Char) : Option (Nat × Nat) :=
  let p := splitOnDot l
  let ipRes : Option (Nat × Nat) := if p.1 = [] then some (0, 0) else digRun p.1
  let fpRes : Option (Nat × Nat) :=
    match p.2 with
    | none => some (0, 0)
    | some fp => if fp = [] then some (0, 0) else digRun fp
  match ipRes, fpRes with
  | some (iv, ic), some (fv, fc) =>
    if ic + fc = 0 then none else some (iv * 10 ^ fc + fv, fc)
  | _, _ => none

/-- The body of `float()` parsing once a leading sign has been removed. -/
def pyFloatBody (neg : Bool) (l : List Char) : Option PyFloat :=
  let low := l.map Char.toLower
  if low = String.toList "inf" ∨ low = String.toList "infinity" then some (PyFloat.inf neg)
  else if low = String.toList "nan" then some PyFloat.nan
  else
    let pe := splitOnExp l
    match parseMantissa pe.1 with
    | none => none
    | some (m, fc) =>
      match pe.2 with
      | none => some (PyFloat.finite neg m (-(fc : Int)))
      | some ec =>
        match parseSignedDigits ec with
        | none => none
        | some e => some (PyFloat.finite neg m (e - (fc : Int)))

/-- Model of CPython `float(t)` on an already-stripped string. -/
def pyFloatOfChars (l : List Char) : Option PyFloat :=
  match l with
  | [] => pyFloatBody false []
  | c :: r =>
    if c = '-' then pyFloatBody true r
    else if c = '+' then pyFloatBody false r
    else pyFloatBody false (c :: r)

/-- The smallest magnitude at which a decimal literal rounds to an IEEE
double infinity (`2^1024 - 2^970`, the midpoint above `DBL_MAX` under
round-to-nearest-even). -/
def FLOAT_OVERFLOW_T : Nat := 2 ^ 1024 - 2 ^ 970

/-- Does the exact decimal `mant * 10^scale` overflow a double (so that
`float()` returns `inf` and a subsequent `int()` raises `OverflowError`)? -/
def floatOverflows (m : Nat) (scale : Int) : Bool :=
  if m = 0 then false
  else if (309 : Int) ≤ scale then true
  else if 0 ≤ scale then decide (FLOAT_OVERFLOW_T ≤ m * 10 ^ scale.toNat)
  else decide (FLOAT_OVERFLOW_T * 10 ^ (-scale).toNat ≤ m)

/-- Magnitude of `int()` applied to the exact value `mant * 10^scale`
(truncation toward zero). -/
def truncMag (m : Nat) (scale : Int) : Nat :=
  if 0 ≤ scale then m * 10 ^ scale.toNat else m / 10 ^ (-scale).toNat

/-- `int()` of the exact signed decimal (truncation toward zero). -/
def truncDec (neg : Bool) (m : Nat) (scale : Int) : Int :=
  if neg then -(truncMag m scale : Int) else (truncMag m scale : Int)

/-- Result of running a piece of Python code that may raise an uncaught
exception: either a value or `raises`. -/
inductive PyResult (α : Type) where
  | ok (val : α)
  | raises
deriving DecidableEq

/-- The em-dash placeholder the script treats as "no value". -/
def emDash : List Char := ['—']

/-- Model of `parse_int` (`build_report_data.py`): strip, treat `""` and the
em-dash as null, remove commas, then `int(float(t))`.  Only `ValueError`
is caught in the source, so an infinite value (`"inf"`, or a decimal
that overflows a double) raises `OverflowError`, modelled as
`PyResult.raises`.  `int(float("nan"))` raises `ValueError`, which *is*
caught.  The CSV reader hands the function strings or `None`, so the
`isinstance(s, int)` fast path of the source is not reachable here. -/
def parse_int (s : Option String) : PyResult (Option Int) :=
  match s with
  | none => PyResult.ok none
  | some s0 =>
    let t := pyStrip s0.toList
    if t = [] ∨ t = emDash then PyResult.ok none
    else
      let t2 := removeCommas t
      match pyFloatOfChars t2 with
      | none => PyResult.ok none
      | some PyFloat.nan => PyResult.ok none
      | some (PyFloat.inf _) => PyResult.raises
      | some (PyFloat.finite neg m sc) =>
        if floatOverflows m sc then PyResult.raises
        else PyResult.ok (some (truncDec neg m sc))

/-! ## Dates -/

/-- Model of `datetime.date`: a calendar date the Python constructor accepted. -/
structure PyDate where
  year : Int
  month : Nat
  day : Nat
deriving DecidableEq

/-- Gregorian leap-year rule (as `calendar`/`datetime` use). -/
def isLeap (y : Int) : Bool :=
  y % 4 = 0 ∧ (y % 100 ≠ 0 ∨ y % 400 = 0)

/-- Days in a month of a given year. -/
def daysInMonth (y : Int) (m : Nat) : Nat :=
  if m = 2 then (if isLeap y then 29 else 28)
  else if m = 4 ∨ m = 6 ∨ m = 9 ∨ m = 11 then 30
  else 31

/-- The validity check `datetime.date(y, m, d)` performs (`ValueError` otherwise). -/
def isValidDate (y : Int) (m : Nat) (d : Int) : Bool :=
  decide (1 ≤ y) && decide (y ≤ 9999) && decide (1 ≤ m) && decide (m ≤ 12) &&
    decide (1 ≤ d) && decide (d ≤ (daysInMonth y m : Int))

/-- Model of `datetime.date(y, m, d)`: `none` when the constructor raises. -/
def mkPyDate (y : Int) (m : Nat) (d : Int) : Option PyDate :=
  if isValidDate y m d then some ⟨y, m, d.toNat⟩ else none

/-- The `MONTHS_MAP` dictionary of the script (lower-cased month names). -/
def MONTHS_MAP (s : String) : Option Nat :=
  match s with
  | "jan" => some 1 | "january" => some 1
  | "feb" => some 2 | "february" => some 2
  | "mar" => some 3 | "march" => some 3
  | "apr" => some 4 | "april" => some 4
  | "may" => some 5
  | "jun" => some 6 | "june" => some 6
  | "jul" => some 7 | "july" => some 7
  | "aug" => some 8 | "august" => some 8
  | "sep" => some 9 | "sept" => some 9 | "september" => some 9
  | "oct" => some 10 | "october" => some 10
  | "nov" => some 11 | "november" => some 11
  | "dec" => some 12 | "december" => some 12
  | _ => none

/-- Model of `parse_human_date` (shapes like `"9 Apr 2025"`): every failure,
including an invalid calendar date, is caught and yields `none`. -/
def parse_human_date (s : String) : Option PyDate :=
  if s = "" then none
  else
    let t := pyStrip s.toList
    if t = [] then none
    else
      match splitWS (removeCommas t) with
      | [p0, p1, p2] =>
        match pyIntOfChars p0 with
        | none => none
        | some day =>
          match MONTHS_MAP ((pyStrip p1).map Char.toLower).asString with
          | none => none
          | some m =>
            match pyIntOfChars p2 with
            | none => none
            | some y => mkPyDate y m day
      | _ => none

/-- Model of `parse_report_month` (shapes like `"December 2025"`).  The final
`dt.date(y, m, 1)` is *not* wrapped in a `try` in the source, so a year the
constructor rejects raises an uncaught `ValueError` (`PyResult.raises`). -/
def parse_report_month (s : String) : PyResult (Option PyDate) :=
  if s = "" then PyResult.ok none
  else
    match splitWS (pyStrip s.toList) with
    | [p0, p1] =>
      match pyIntOfChars p1 with
      | none => PyResult.ok none
      | some y =>
        match MONTHS_MAP ((pyStrip p0).map Char.toLower).asString with
        | none => PyResult.ok none
        | some m =>
          match mkPyDate y m 1 with
          | some d => PyResult.ok (some d)
          | none => PyResult.raises
    | _ => PyResult.ok none

/-- Left-pad a numeral with zeros (the `f"{v:04d}"` / `f"{v:02d}"` formats). -/
def padZeros (w : Nat) (s : String) : String :=
  if s.length < w then (List.replicate (w - s.length) '0').asString ++ s else s

/-- Fuel-indexed decimal digits of a natural number, least significant first. -/
def natDigsRev : Nat → Nat → List Char
  | 0, _ => []
  | fuel + 1, n =>
    if n < 10 then [digitChar n] else digitChar (n % 10) :: natDigsRev fuel (n / 10)

/-- Decimal digit characters of a natural number, most significant first. -/
def digitsOfNat (n : Nat) : List Char := (natDigsRev (n + 1) n).reverse

/-- Model of Python `str()` on a non-negative int. -/
def pyStrOfNat (n : Nat) : String := (digitsOfNat n).asString

/-- Character list of Python `str()` on an int. -/
def intChars (n : Int) : List Char :=
  if n < 0 then '-' :: digitsOfNat n.natAbs else digitsOfNat n.natAbs

/-- Model of Python `str()` on an int. -/
def pyStrOfInt (n : Int) : String := (intChars n).asString

/-- Model of `month_key`: the `f"{d.year:04d}-{d.month:02d}"` bucket. -/
def month_key (d : PyDate) : String :=
  padZeros 4 (pyStrOfInt d.year) ++ "-" ++ padZeros 2 (pyStrOfNat d.month)

/-- Model of `date.isoformat()`. -/
def isoformat (d : PyDate) : String :=
  padZeros 4 (pyStrOfInt d.year) ++ "-" ++ padZeros 2 (pyStrOfNat d.month) ++ "-" ++
    padZeros 2 (pyStrOfNat d.day)

/-- Model of the date-resolution block of `main` (lines 350-374): produce
`(d, date_source, date_iso, month)` for one row.  `yt` stands for the outcome
of `youtube_publish_date(link, cache)` wrapped in its `try/except` (`none`
covers both "no confirmed date" and any raised exception); it is only
consulted when the channel is YouTube and a link exists, exactly as in the
source.  `parse_report_month` can raise (see there), and that exception
propagates out of `main`. -/
def resolveDate (date_raw channel link report_month_raw : String) (yt : Option PyDate) :
    PyResult (Option PyDate × String × String × String) :=
  match parse_human_date date_raw with
  | some d => PyResult.ok (some d, "provided", isoformat d, month_key d)
  | none =>
    let d2 : Option PyDate := if sLower channel = "youtube" ∧ link ≠ "" then yt else none
    match d2 with
    | some d => PyResult.ok (some d, "youtube_publish", isoformat d, month_key d)
    | none =>
      match parse_report_month report_month_raw with
      | PyResult.raises => PyResult.raises
      | PyResult.ok (some d) =>
          PyResult.ok (some d, "inferred_report_month", isoformat d, month_key d)
      | PyResult.ok none => PyResult.ok (none, "unknown", "", "_nodate")

/-! ## URL normalisation (`normalize_youtube_url`) -/

/-- A character of the regex class `[A-Za-z0-9_-]` (a video-id character). -/
def isIdChar (c : Char) : Bool := c.isAlpha || c.isDigit || c == '_' || c == '-'

/-- Does the first list start with the second? -/
def startsWithL : List Char → List Char → Bool
  | _, [] => true
  | [], _ :: _ => false
  | a :: l1, b :: l2 => a == b && startsWithL l1 l2

/-- Does the first list contain the second as a contiguous run (`in` on `str`)? -/
def containsSubL : List Char → List Char → Bool
  | [], p => p.isEmpty
  | l@(_ :: t), p => startsWithL l p || containsSubL t p

/-- Model of `re.search` for `pre` followed by `[A-Za-z0-9_-]{6,}`: scan each
position left to right; at a position where `pre` matches, the greedy id run
must reach 6 characters or the scan moves on. -/
def scanFor (pre : List Char) : List Char → Option (List Char)
  | [] => none
  | l@(_ :: t) =>
    if startsWithL l pre then
      let run := (l.drop pre.length).takeWhile isIdChar
      if 6 ≤ run.length then some run else scanFor pre t
    else scanFor pre t

/-- Match one alternative prefix plus `[A-Za-z0-9_-]{6,}` at a fixed position. -/
def matchPreAt (l : List Char) (pre : String) : Option (List Char) :=
  if startsWithL l pre.toList then
    let run := (l.drop pre.toList.length).takeWhile isIdChar
    if 6 ≤ run.length then some run else none
  else none

/-- Try the four alternatives of `YOUTUBE_ID_RE` at one position (they are
mutually exclusive, so order does not matter). -/
def ytTryAt (l : List Char) : Option (List Char) :=
  match matchPreAt l "youtu.be/" with
  | some r => some r
  | none =>
    match matchPreAt l "youtube.com/watch?v=" with
    | some r => some r
    | none =>
      match matchPreAt l "youtube.com/shorts/" with
      | some r => some r
      | none => matchPreAt l "youtube.com/embed/"

/-- Model of `re.search` with `YOUTUBE_ID_RE`. -/
def ytSearch : List Char → Option (List Char)
  | [] => none
  | l@(_ :: t) =>
    match ytTryAt l with
    | some r => some r
    | none => ytSearch t

/-- A character CPython's `urlsplit` accepts inside a scheme. -/
def schemeChar (c : Char) : Bool := c.isAlpha || c.isDigit || c == '+' || c == '-' || c == '.'

/-- Split at the first occurrence of a character, if any. -/
def splitAtFirst (sep : Char) : List Char → List Char × Option (List Char)
  | [] => ([], none)
  | c :: r =>
    if c == sep then ([], some r)
    else
      let p := splitAtFirst sep r
      (c :: p.1, p.2)

/-- Model of `urllib.parse.urlparse`, restricted to the three components the
script reads: `(netloc, path, query)`.  Follows CPython `urlsplit`: strip a
`scheme:` made of scheme characters, read `//netloc` up to `/?#`, cut the
fragment at the first `#`, then the query at the first `?`. -/
def urlsplitModel (u : String) : String × String × String :=
  let l := u.toList
  let sp := splitAtFirst ':' l
  let rest :=
    match sp.2 with
    | some r => if sp.1 ≠ [] ∧ sp.1.all schemeChar then r else l
    | none => l
  let netRest :=
    match rest with
    | '/' :: '/' :: r =>
      let nl := r.takeWhile (fun c => !(c == '/' || c == '?' || c == '#'))
      (nl, r.drop nl.length)
    | _ => ([], rest)
  let beforeFrag := (splitAtFirst '#' netRest.2).1
  let q := splitAtFirst '?' beforeFrag
  (netRest.1.asString, q.1.asString, (q.2.getD []).asString)

/-- A hexadecimal digit character. -/
def isHexChar (c : Char) : Bool :=
  c.isDigit || (97 ≤ c.toNat && c.toNat ≤ 102) || (65 ≤ c.toNat && c.toNat ≤ 70)

/-- Value of a hexadecimal digit character. -/
def hexVal (c : Char) : Nat :=
  if c.isDigit then c.toNat - 48 else if 97 ≤ c.toNat then c.toNat - 87 else c.toNat - 55

/-- Model of `urllib.parse.unquote_plus` (`+` to space, `%XX` byte decoding;
modelled bytewise, which agrees with CPython on the ASCII inputs at play). -/
def unquotePlus : List Char → List Char
  | [] => []
  | '+' :: r => ' ' :: unquotePlus r
  | '%' :: a :: b :: r2 =>
    if isHexChar a && isHexChar b then Char.ofNat (16 * hexVal a + hexVal b) :: unquotePlus r2
    else '%' :: unquotePlus (a :: b :: r2)
  | c :: r => c :: unquotePlus r

/-- Split on every occurrence of a separator (keeping empty pieces). -/
def splitAllOn (sep : Char) (acc : List Char) : List Char → List (List Char)
  | [] => [acc.reverse]
  | c :: r =>
    if c == sep then acc.reverse :: splitAllOn sep [] r else splitAllOn sep (c :: acc) r

/-- First value under key `"v"` in the pairs of a query string, per
`parse_qs` defaults: pairs split on `&`, a pair without `=` or with a blank
value is dropped, names and values are unquoted. -/
def firstV : List (List Char) → Option String
  | [] => none
  | p :: rest =>
    if p = [] then firstV rest
    else
      let s := splitAtFirst '=' p
      match s.2 with
      | none => firstV rest
      | some v =>
        if v = [] then firstV rest
        else if unquotePlus s.1 = String.toList "v" then some (unquotePlus v).asString
        else firstV rest

/-- Model of `parse_qs(query).get("v")`'s first element. -/
def parseQsV (q : String) : Option String := firstV (splitAllOn '&' [] q.toList)

/-- The watch-URL fallback branch of `normalize_youtube_url`: a
`youtube.com`-netloc URL with path `/watch` and a non-empty `v` parameter. -/
def watchFallback (u : String) : Option String :=
  let t := urlsplitModel u
  if containsSubL t.1.toList (String.toList "youtube.com") ∧ t.2.1 = "/watch" then
    match parseQsV t.2.2 with
    | some vid => if vid ≠ "" then some ("https://www.youtube.com/watch?v=" ++ vid) else none
    | none => none
  else none

/-- Model of `normalize_youtube_url`: studio links first, then the id regex,
then the parsed watch-URL fallback. -/
def normalize_youtube_url (url : String) : Option String :=
  if url = "" then none
  else
    let u := pyStripS url
    if u = "" then none
    else if containsSubL u.toList (String.toList "studio.youtube.com") then
      match scanFor (String.toList "studio.youtube.com/video/") u.toList with
      | some vid => some ("https://www.youtube.com/watch?v=" ++ vid.asString)
      | none => none
    else
      match ytSearch u.toList with
      | some vid => some ("https://www.youtube.com/watch?v=" ++ vid.asString)
      | none => watchFallback u

/-! ## YouTube publish-date lookup and its cache (`youtube_publish_date`) -/

/-- Association-list lookup (first match), the model of a `dict` read. -/
def cacheLookup : List (String × String) → String → Option String
  | [], _ => none
  | (k, v) :: r, key => if k = key then some v else cacheLookup r key

/-- `dict` write: update in place, or append a new key at the end. -/
def cacheSet : List (String × String) → String → String → List (String × String)
  | [], key, nv => [(key, nv)]
  | (k, v) :: r, key, nv =>
    if k = key then (k, nv) :: r else (k, v) :: cacheSet r key nv

/-- Model of `datetime.date.fromisoformat` (Python 3.9: exactly
`YYYY-MM-DD`, validated); `none` when it raises `ValueError`. -/
def dateFromIso (s : String) : Option PyDate :=
  match s.toList with
  | [y1, y2, y3, y4, h1, m1, m2, h2, d1, d2] =>
    if h1 == '-' && h2 == '-' && y1.isDigit && y2.isDigit && y3.isDigit && y4.isDigit &&
        m1.isDigit && m2.isDigit && d1.isDigit && d2.isDigit then
      mkPyDate ((((charVal y1 * 10 + charVal y2) * 10 + charVal y3) * 10 + charVal y4 : Nat) : Int)
        (charVal m1 * 10 + charVal m2) ((charVal d1 * 10 + charVal d2 : Nat) : Int)
    else none
  | _ => none

/-- Outcome of one `youtube_publish_date` call: its return value, the cache it
leaves behind, and whether an external fetch attempt (page scrape and/or
`yt-dlp`) was made during the call. -/
structure YtResult where
  result : Option PyDate
  cache : List (String × String)
  fetched : Bool
deriving DecidableEq

/-- Model of `youtube_publish_date(url, cache)`.  `scrape` stands for the
outcome of `fetch_url_text` + `extract_publish_date` (with `none` covering a
network failure, empty page, or no metadata match); `ytdlp` for the fallback
extraction (with `none` covering tool absence, failure, timeout, or a
malformed date).  Mirrors the source exactly: a cache hit is only honoured
when `date.fromisoformat` accepts the cached text — the empty string raises
`ValueError`, is `pass`ed over, and execution falls through to a fresh fetch. -/
def youtube_publish_date (scrape ytdlp : Option PyDate) (cache : List (String × String))
    (url : String) : YtResult :=
  match normalize_youtube_url url with
  | none => ⟨none, cache, false⟩
  | some norm =>
    let hit : Option PyDate :=
      match cacheLookup cache norm with
      | some v => dateFromIso v
      | none => none
    match hit with
    | some d => ⟨some d, cache, false⟩
    | none =>
      match scrape with
      | some d => ⟨some d, cacheSet cache norm (isoformat d), true⟩
      | none =>
        match ytdlp with
        | some d => ⟨some d, cacheSet cache norm (isoformat d), true⟩
        | none => ⟨none, cacheSet cache norm "", true⟩

/-! ## Records, identity keys, and the merge engine -/

/-- The item dictionary built for each row of the CSV (lines 402-421). -/
structure Record where
  channel : String := ""
  type : String := ""
  title : String := ""
  link : String := ""
  date_raw : String := ""
  date_iso : String := ""
  month : String := ""
  date_source : String := "unknown"
  impressions : Option Int := none
  views : Option Int := none
  engagements : Option Int := none
  clicks : Option Int := none
  attendees : Option Int := none
  chat_count : Option Int := none
  email_sends : Option Int := none
  article_views : Option Int := none
  interactions : Option Int := none
  report_month : String := ""
deriving DecidableEq

/-- A dedup identity key.  `dedup_key` in the source returns a 4-tuple or a
5-tuple; tuples of different lengths are never equal in Python, which the
`Option` date component reproduces (`none` = 4-tuple, `some d` = 5-tuple). -/
structure DKey where
  channel : String
  type : String
  title : String
  link : String
  dateExt : Option String
deriving DecidableEq

/-- The `DATE_PRIORITY` table with its `.get(..., 0)` default. -/
def DATE_PRIORITY (s : String) : Nat :=
  if s = "provided" then 3
  else if s = "youtube_publish" then 2
  else if s = "inferred_report_month" then 1
  else 0

/-- Python `a or b` on strings (empty string is falsy). -/
def pyOrS (a b : String) : String := if a = "" then b else a

/-- Is the stripped, lower-cased channel one of the two truncated-title
channels of `dedup_key`? -/
def truncChan (it : Record) : Prop :=
  sLower (pyStripS it.channel) = "linkedin" ∨ sLower (pyStripS it.channel) = "instagram"

instance (it : Record) : Decidable (truncChan it) := by unfold truncChan; infer_instance

/-- The normalised link `dedup_key` computes: YouTube links are canonicalised
when that succeeds, any other (or unnormalisable) link is used as stripped. -/
def normLinkOf (it : Record) : String :=
  let channel := pyStripS it.channel
  let link := pyStripS it.link
  if sLower channel = "youtube" ∧ link ≠ "" then
    match normalize_youtube_url link with
    | some nl => nl
    | none => link
  else link

/-- Model of `dedup_key` (lines 293-314): `(channel, type, title, norm_link)`,
with the resolved date appended only when the normalised link is empty and
either the title is empty (recurring events) or the channel is
LinkedIn/Instagram (truncated titles). -/
def dedup_key (it : Record) : DKey :=
  let channel := pyStripS it.channel
  let dtype := pyStripS it.type
  let title := pyStripS it.title
  let norm_link := normLinkOf it
  let date_iso := it.date_iso
  if norm_link = "" then
    if title = "" then ⟨channel, dtype, title, norm_link, some date_iso⟩
    else if truncChan it then ⟨channel, dtype, title, norm_link, some date_iso⟩
    else ⟨channel, dtype, title, norm_link, none⟩
  else ⟨channel, dtype, title, norm_link, none⟩

/-- The collision arm of the accumulation loop (lines 427-445): which record
survives under key `k` when `item` arrives and `prev` is stored, including the
"graft the better date onto the higher-metric record" exception. -/
def mergeStep (prev item : Record) : Record :=
  let p1 := DATE_PRIORITY prev.date_source
  let p2 := DATE_PRIORITY item.date_source
  let prevImp := prev.impressions.getD 0
  let newImp := item.impressions.getD 0
  if p1 < p2 then
    if prevImp > newImp * 10 ∧ prevImp > 100 then
      { prev with
        date_raw := pyOrS item.date_raw prev.date_raw,
        date_iso := pyOrS item.date_iso prev.date_iso,
        month := pyOrS item.month prev.month,
        date_source := item.date_source }
    else item
  else if p2 = p1 then (if newImp > prevImp then item else prev)
  else prev

/-- Association-list lookup on identity keys (a `dict` read). -/
def lookupK : List (DKey × Record) → DKey → Option Record
  | [], _ => none
  | (k, v) :: r, key => if k = key then some v else lookupK r key

/-- Replace the value stored under a key, keeping its position (as a Python
`dict` update does). -/
def updateK : List (DKey × Record) → DKey → Record → List (DKey × Record)
  | [], _, _ => []
  | (k, v) :: r, key, nv => if k = key then (k, nv) :: r else (k, v) :: updateK r key nv

/-- One step of the accumulation loop: insert a freshly built item into the
insertion-ordered identity map, merging on collision. -/
def insertRow (m : List (DKey × Record)) (item : Record) : List (DKey × Record) :=
  let k := dedup_key item
  match lookupK m k with
  | none => m ++ [(k, item)]
  | some prev => updateK m k (mergeStep prev item)

/-! ## The cross-period reconciliation pass (lines 451-525) -/

/-- Model of the local `clean_title`: strip, lower, strip trailing dots. -/
def clean_title (t : String) : String :=
  ((((pyStrip t.toList).map Char.toLower).reverse.dropWhile (fun c => c == '.')).reverse).asString

/-- Python string slicing `s[:n]`. -/
def strTake (s : String) (n : Nat) : String := (s.toList.take n).asString

/-- The conditions under which the candidate scan of the pass accepts a
properly-dated entry `(mk, mit)` for an inferred record with channel `ch`
(stripped, lowered) and cleaned title `ct`: not already removed, same
channel, cleaned candidate title non-empty and of length at least 8, the
shorter cleaned title of length at least 8, and agreement on the first
`min(shorter, 10)` characters. -/
def candOk (removed : List DKey) (ch ct : String) (mk : DKey) (mit : Record) : Prop :=
  ¬ mk ∈ removed ∧
  sLower (pyStripS mit.channel) = ch ∧
  clean_title mit.title ≠ "" ∧
  ¬ (clean_title mit.title).length < 8 ∧
  ¬ min ct.length (clean_title mit.title).length < 8 ∧
  strTake ct (min (min ct.length (clean_title mit.title).length) 10) =
    strTake (clean_title mit.title) (min (min ct.length (clean_title mit.title).length) 10)

instance (removed : List DKey) (ch ct : String) (mk : DKey) (mit : Record) :
    Decidable (candOk removed ch ct mk mit) := by unfold candOk; infer_instance

/-- The candidate scan (the inner `for mk, mit in dated_items` loop): walk the
properly-dated snapshot in order, keep the first acceptable candidate, and
later replace it only by one whose type equals the inferred record's type
when the held one's does not. -/
def findBestAux (ch ct ity : String) (removed : List DKey) :
    Option (DKey × Record) → List (DKey × Record) → Option (DKey × Record)
  | best, [] => best
  | best, kv :: rest =>
    if candOk removed ch ct kv.1 kv.2 then
      match best with
      | none => findBestAux ch ct ity removed (some kv) rest
      | some b =>
        if kv.2.type = ity ∧ ¬ b.2.type = ity then
          findBestAux ch ct ity removed (some kv) rest
        else findBestAux ch ct ity removed best rest
    else findBestAux ch ct ity removed best rest

/-- One iteration of the outer reconciliation loop over the snapshot entry
`(k, it)`, carrying the current map and the keys already marked for removal. -/
def reconcileStep (dated : List (DKey × Record)) (st : List (DKey × Record) × List DKey)
    (kv : DKey × Record) : List (DKey × Record) × List DKey :=
  let m := st.1
  let removed := st.2
  let k := kv.1
  let it := kv.2
  if k ∈ removed then st
  else if ¬ it.date_source = "inferred_report_month" then st
  else
    let title := pyStripS it.title
    if title = "" then st
    else
      let ch := sLower (pyStripS it.channel)
      let ct := clean_title title
      match findBestAux ch ct it.type removed none dated with
      | none => st
      | some (bk, best) =>
        if best.impressions.getD 0 ≤ it.impressions.getD 0 then
          (updateK m k
            { it with
              date_iso := best.date_iso,
              date_raw := best.date_raw,
              month := best.month,
              date_source := "matched_" ++ best.date_source,
              link := if best.link ≠ "" ∧ it.link = "" then best.link else it.link },
           bk :: removed)
        else (m, k :: removed)

/-- The snapshot of properly-dated entries the pass indexes before it begins. -/
def properlyDated (m : List (DKey × Record)) : List (DKey × Record) :=
  m.filter (fun kv => kv.2.date_source == "provided" || kv.2.date_source == "youtube_publish")

/-- Model of the whole cross-period reconciliation pass: fold the outer loop
over a snapshot of the map, then drop every key marked for removal. -/
def reconcilePass (m : List (DKey × Record)) : List (DKey × Record) :=
  let dated := properlyDated m
  let res := m.foldl (reconcileStep dated) (m, [])
  res.1.filter (fun kv => decide (¬ kv.1 ∈ res.2))

/-- Length of the longest common prefix of two character lists. -/
def commonPrefixLen : List Char → List Char → Nat
  | a :: l1, b :: l2 => if a == b then commonPrefixLen l1 l2 + 1 else 0
  | _, _ => 0

/-! ## Concrete records used by the witnesses and counterexamples -/

/-- A stored record with a worse date tier but large impressions (its date
text is non-empty but unparseable, hence the inferred tier). -/
def prevC2 : Record :=
  { date_source := "inferred_report_month", date_raw := "TBD", date_iso := "2025-07-01",
    month := "2025-07", impressions := some 5000 }

/-- A colliding record with a better date tier, empty date text (a confirmed
YouTube date has no source text), and small impressions. -/
def itemC2 : Record :=
  { date_source := "youtube_publish", date_raw := "", date_iso := "2025-04-09",
    month := "2025-04", impressions := some 10 }

/-- A stored high-impressions record for the graft witness. -/
def prevC2w : Record :=
  { date_source := "inferred_report_month", date_raw := "", date_iso := "2025-07-01",
    month := "2025-07", impressions := some 5000 }

/-- A colliding provided-date record for the graft witness. -/
def itemC2w : Record :=
  { date_source := "provided", date_raw := "9 Apr 2025", date_iso := "2025-04-09",
    month := "2025-04", impressions := some 10 }

/-- A colliding provided-date record for the full-replacement witness. -/
def itemC2r : Record :=
  { date_source := "provided", date_raw := "9 Apr 2025", date_iso := "2025-04-09",
    month := "2025-04", impressions := some 600 }

/-- A properly-dated candidate for the reconciliation witness. -/
def candC3 : Record :=
  { channel := "FHC", type := "Webinar", title := "Quarterly Budget Planning Webinar",
    link := "https://fhc.example/w", date_raw := "9 Apr 2025", date_iso := "2025-04-09",
    month := "2025-04", date_source := "provided", impressions := some 30 }

/-- An inferred re-listing of `candC3` for the reconciliation witness. -/
def infC3 : Record :=
  { channel := "FHC", type := "Webinar", title := "Quarterly Budget Planning Webinar Recap",
    link := "", date_iso := "2025-07-01", month := "2025-07",
    date_source := "inferred_report_month", impressions := some 50 }

/-- A properly-dated candidate whose cleaned title has only 8 characters. -/
def candC4 : Record :=
  { channel := "FHC", type := "Video", title := "abcdefgh", link := "L",
    date_raw := "9 Apr 2025", date_iso := "2025-04-09", month := "2025-04",
    date_source := "provided", impressions := some 30 }

/-- An inferred record with the same 8-character title (different type, so the
two occupy distinct identity keys). -/
def infC4 : Record :=
  { channel := "FHC", type := "Webinar", title := "abcdefgh", link := "",
    date_iso := "2025-07-01", month := "2025-07",
    date_source := "inferred_report_month", impressions := some 50 }

/-- What the reconciliation pass turns `infC4` into. -/
def mergedC4 : Record :=
  { infC4 with
    date_iso := "2025-04-09", date_raw := "9 Apr 2025", month := "2025-04",
    date_source := "matched_provided", link := "L" }

/-- A LinkedIn record WITH a link: the claim says its key carries the date. -/
def itC6 : Record :=
  { channel := "linkedin", type := "Post", title := "t", link := "x",
    date_iso := "2025-01-01" }

/-- A LinkedIn record with an empty link, for the witness. -/
def itC6w : Record :=
  { channel := "LinkedIn", type := "Post", title := "t", link := "",
    date_iso := "2025-01-01" }

/-- An empty-title record with a non-empty, non-normalisable link. -/
def itC10 : Record :=
  { channel := "fhc", type := "Webinar", title := "", link := "xyz", date_iso := "" }

/-- First empty-title, empty-link, undated record for the C10 witness. -/
def r1C10 : Record :=
  { channel := "FHC", type := "Webinar", title := "", link := "", date_iso := "",
    impressions := some 5 }

/-- Second such record, representing a distinct event. -/
def r2C10 : Record :=
  { channel := "FHC", type := "Webinar", title := "", link := "", date_iso := "",
    impressions := some 7 }

example : parse_int (some "1,234") = PyResult.ok (some 1234) := by decide
example : parse_int (some " 12.5 ") = PyResult.ok (some 12) := by decide
example : parse_int (some "—") = PyResult.ok none := by decide
example : parse_int (some "") = PyResult.ok none := by decide
example : parse_int (some "abc") = PyResult.ok none := by decide
example : parse_int (some "-5") = PyResult.ok (some (-5)) := by decide
example : parse_int (some "1e3") = PyResult.ok (some 1000) := by decide
example : parse_int (some "nan") = PyResult.ok none := by decide
example : parse_int (some "inf") = PyResult.raises := by decide
example : parse_int (some "2.75") = PyResult.ok (some 2) := by decide
example : parse_int (some "1_0") = PyResult.ok (some 10) := by decide
example : parse_int (some "1_") = PyResult.ok none := by decide
example : parse_int none = PyResult.ok none := by decide

example : parse_human_date "9 Apr 2025" = some ⟨2025, 4, 9⟩ := by decide
example : parse_human_date "30 Sept 2025" = some ⟨2025, 9, 30⟩ := by decide
example : parse_human_date "31 Sept 2025" = none := by decide
example : parse_human_date "TBD" = none := by decide
example : parse_report_month "December 2025" = PyResult.ok (some ⟨2025, 12, 1⟩) := by decide
example : parse_report_month "" = PyResult.ok none := by decide
example : parse_report_month "January 10000" = PyResult.raises := by decide
example : month_key ⟨2025, 4, 1⟩ = "2025-04" := by decide
example : isoformat ⟨2025, 4, 9⟩ = "2025-04-09" := by decide
example :
    resolveDate "9 Apr 2025" "FHC" "" "December 2025" none =
      PyResult.ok (some ⟨2025, 4, 9⟩, "provided", "2025-04-09", "2025-04") := by decide
example :
    resolveDate "" "YouTube" "L" "December 2025" (some ⟨2025, 1, 2⟩) =
      PyResult.ok (some ⟨2025, 1, 2⟩, "youtube_publish", "2025-01-02", "2025-01") := by decide
example :
    resolveDate "" "YouTube" "" "December 2025" (some ⟨2025, 1, 2⟩) =
      PyResult.ok (some ⟨2025, 12, 1⟩, "inferred_report_month", "2025-12-01", "2025-12") := by
  decide
example : resolveDate "" "FHC" "" "" none = PyResult.ok (none, "unknown", "", "_nodate") := by
  decide

example :
    normalize_youtube_url "https://youtu.be/abcdefgh" =
      some "https://www.youtube.com/watch?v=abcdefgh" := by decide
example :
    normalize_youtube_url "https://studio.youtube.com/video/xyz_12345/edit" =
      some "https://www.youtube.com/watch?v=xyz_12345" := by decide
example :
    normalize_youtube_url "https://www.youtube.com/watch?app=desktop&v=abc123xyz" =
      some "https://www.youtube.com/watch?v=abc123xyz" := by decide
example : normalize_youtube_url "xyz" = none := by decide
example : normalize_youtube_url "" = none := by decide
example : normalize_youtube_url "https://youtu.be/abc" = none := by decide
example : dateFromIso "2025-04-09" = some ⟨2025, 4, 9⟩ := by decide
example : dateFromIso "" = none := by decide
example :
    youtube_publish_date none none [] "https://youtu.be/abcdefgh" =
      ⟨none, [("https://www.youtube.com/watch?v=abcdefgh", "")], true⟩ := by decide
example :
    youtube_publish_date none none [("https://www.youtube.com/watch?v=abcdefgh", "2025-04-09")]
        "https://youtu.be/abcdefgh" =
      ⟨some ⟨2025, 4, 9⟩, [("https://www.youtube.com/watch?v=abcdefgh", "2025-04-09")], false⟩ := by
  decide

/-! ## Shared helper lemmas -/

/-- Two records whose identity keys agree collapse to a single map entry. -/
theorem insert_collision_single (r1 r2 : Record) (h : dedup_key r1 = dedup_key r2) :
    (insertRow (insertRow [] r1) r2).length = 1 := by
  simp [insertRow, lookupK, updateK, ← h]

/-! ## C2: the merge rule on a tier-upgrading collision -/

/-- C2 (counterexample): the claim says the surviving record carries *the new
record's* date fields after the magnitude-exception graft; but when the new
record's date text is empty the code keeps the stored record's date text
(`item.get("date_raw") or prev.get("date_raw")`), so the grafted date text is
`"TBD"`, not the new record's `""`. -/
theorem C2_counterexample :
    DATE_PRIORITY prevC2.date_source < DATE_PRIORITY itemC2.date_source ∧
    prevC2.impressions.getD 0 > itemC2.impressions.getD 0 * 10 ∧
    prevC2.impressions.getD 0 > 100 ∧
    itemC2.date_raw = "" ∧
    (mergeStep prevC2 itemC2).date_raw = "TBD" ∧
    ¬ (mergeStep prevC2 itemC2).date_raw = itemC2.date_raw := by decide

/-- C2 (amended): on a collision where the new record's date tier is strictly
higher, if the stored impressions exceed 10 times the new ones and exceed
100, the stored record is kept with all its metrics unchanged and the new
record's date fields are grafted onto it — except that an *empty* new date
text (or ISO date, or month) leaves the stored record's value in place;
otherwise the new record fully replaces the stored one. -/
theorem C2_merge_rule (prev item : Record)
    (hp : DATE_PRIORITY prev.date_source < DATE_PRIORITY item.date_source) :
    (prev.impressions.getD 0 > item.impressions.getD 0 * 10 ∧ prev.impressions.getD 0 > 100 →
      mergeStep prev item =
        { prev with
          date_raw := pyOrS item.date_raw prev.date_raw,
          date_iso := pyOrS item.date_iso prev.date_iso,
          month := pyOrS item.month prev.month,
          date_source := item.date_source }) ∧
    (¬ (prev.impressions.getD 0 > item.impressions.getD 0 * 10 ∧
        prev.impressions.getD 0 > 100) →
      mergeStep prev item = item) := by
  constructor <;> intro h <;> simp [mergeStep, hp, h]

/-- C2 (witness): the graft arm at `prevC2w`/`itemC2w` and the replacement arm
at `prevC2w`/`itemC2r`. -/
theorem C2_witness :
    (DATE_PRIORITY prevC2w.date_source < DATE_PRIORITY itemC2w.date_source ∧
      mergeStep prevC2w itemC2w =
        { prevC2w with
          date_raw := pyOrS itemC2w.date_raw prevC2w.date_raw,
          date_iso := pyOrS itemC2w.date_iso prevC2w.date_iso,
          month := pyOrS itemC2w.month prevC2w.month,
          date_source := itemC2w.date_source }) ∧
    mergeStep prevC2w itemC2r = itemC2r :=
  ⟨⟨by decide, (C2_merge_rule prevC2w itemC2w (by decide)).1 (by decide)⟩,
   (C2_merge_rule prevC2w itemC2r (by decide)).2 (by decide)⟩

/-! ## C3: the action taken on a reconciliation match -/

/-- C3: when the pass visits an inferred-from-period record `(k, it)` not yet
marked for removal and the candidate scan returns `(bk, best)`: if the
inferred record's impressions (null as 0) reach the candidate's, the inferred
record adopts the candidate's `date_raw`, `date_iso` and `month`, its
`date_source` becomes `"matched_"` + the candidate's, its link is backfilled
from the candidate when empty, and the candidate's key is marked for removal;
otherwise the inferred record's own key is marked for removal. -/
theorem C3_reconcile_action (dated m : List (DKey × Record)) (removed : List DKey)
    (k bk : DKey) (it best : Record)
    (hk : ¬ k ∈ removed)
    (hds : it.date_source = "inferred_report_month")
    (ht : ¬ pyStripS it.title = "")
    (hf : findBestAux (sLower (pyStripS it.channel)) (clean_title (pyStripS it.title)) it.type
      removed none dated = some (bk, best)) :
    (best.impressions.getD 0 ≤ it.impressions.getD 0 →
      reconcileStep dated (m, removed) (k, it) =
        (updateK m k
          { it with
            date_iso := best.date_iso,
            date_raw := best.date_raw,
            month := best.month,
            date_source := "matched_" ++ best.date_source,
            link := if best.link ≠ "" ∧ it.link = "" then best.link else it.link },
         bk :: removed)) ∧
    (¬ best.impressions.getD 0 ≤ it.impressions.getD 0 →
      reconcileStep dated (m, removed) (k, it) = (m, k :: removed)) := by
  constructor <;> intro h <;> simp [reconcileStep, hk, hds, ht, hf, h]

/-- C3 (witness): the spec's own worked example — inferred "…Webinar Recap"
with 50 impressions matched against provided "…Webinar" with 30 — adopts the
candidate's date fields and marks the candidate for removal. -/
theorem C3_witness :
    reconcileStep [(dedup_key candC3, candC3)]
        ([(dedup_key candC3, candC3), (dedup_key infC3, infC3)], [])
        (dedup_key infC3, infC3) =
      (updateK [(dedup_key candC3, candC3), (dedup_key infC3, infC3)] (dedup_key infC3)
        { infC3 with
          date_iso := candC3.date_iso,
          date_raw := candC3.date_raw,
          month := candC3.month,
          date_source := "matched_" ++ candC3.date_source,
          link := if candC3.link ≠ "" ∧ infC3.link = "" then candC3.link else infC3.link },
       [dedup_key candC3]) :=
  (C3_reconcile_action [(dedup_key candC3, candC3)]
    [(dedup_key candC3, candC3), (dedup_key infC3, infC3)] [] (dedup_key infC3)
    (dedup_key candC3) infC3 candC3 (by decide) (by decide) (by decide) (by decide)).1
    (by decide)

/-! ## C4 (counterexample): a merge on an 8-character common prefix -/

/-- C4 (counterexample): the claim requires a shared prefix of at least 10
characters, but the code compares only `min(shorter, 10)` characters, so two
identical 8-character cleaned titles (common prefix length 8) are merged by
the pass. -/
theorem C4_counterexample :
    reconcilePass [(dedup_key candC4, candC4), (dedup_key infC4, infC4)] =
      [(dedup_key infC4, mergedC4)] ∧
    commonPrefixLen (clean_title infC4.title).toList (clean_title candC4.title).toList = 8 := by
  decide

/-! ## C5: resolver precedence, and the unguarded period-label date -/

/-- C5 (code bug, evaluated): the resolver follows the claimed precedence —
provided date first, then the YouTube confirmation (only for a YouTube
channel with a link), then the report-month anchor, else unknown with the
`"_nodate"` sentinel — but a parseable period label whose year is out of the
`datetime.date` range (here `"January 10000"`) makes `parse_report_month`
raise an uncaught `ValueError` instead of yielding a date or unknown, because
its `dt.date(y, m, 1)` call is not `try`-guarded (unlike `parse_human_date`). -/
theorem C5_resolver_precedence_and_crash :
    resolveDate "9 Apr 2025" "YouTube" "L" "December 2025" (some ⟨2025, 1, 2⟩) =
      PyResult.ok (some ⟨2025, 4, 9⟩, "provided", "2025-04-09", "2025-04") ∧
    resolveDate "" "YouTube" "L" "December 2025" (some ⟨2025, 1, 2⟩) =
      PyResult.ok (some ⟨2025, 1, 2⟩, "youtube_publish", "2025-01-02", "2025-01") ∧
    resolveDate "" "YouTube" "" "December 2025" (some ⟨2025, 1, 2⟩) =
      PyResult.ok (some ⟨2025, 12, 1⟩, "inferred_report_month", "2025-12-01", "2025-12") ∧
    resolveDate "" "FHC" "" "" none = PyResult.ok (none, "unknown", "", "_nodate") ∧
    resolveDate "" "FHC" "" "January 10000" none = PyResult.raises :=
  ⟨by decide, by decide, by decide, by decide, by decide⟩

/-! ## C7: parse_int is not total -/

/-- C7 (code bug, evaluated): `parse_int` strips thousands separators, treats
the empty string and the em-dash as null, truncates a decimal value, and
degrades unparseable text to null — but `int(float("inf"))` raises
`OverflowError`, which the source's `except ValueError` does not catch, so
`parse_int("inf")` raises instead of returning null. -/
theorem C7_parse_int_never_raises_refuted :
    parse_int (some "1,234") = PyResult.ok (some 1234) ∧
    parse_int (some "—") = PyResult.ok none ∧
    parse_int (some "") = PyResult.ok none ∧
    parse_int (some "12.5") = PyResult.ok (some 12) ∧
    parse_int (some "n/a") = PyResult.ok none ∧
    parse_int (some "inf") = PyResult.raises := by decide

/-! ## C8: the cache does not stop a second fetch after a failure -/

/-- C8 (code bug, evaluated): after a failed lookup the cache stores `""` for
the canonical URL, but on the next call for the same video
`date.fromisoformat("")` raises, the `except` falls through, and another
external fetch attempt is made — the cached negative entry does not prevent
re-fetching within the run. -/
theorem C8_cached_negative_does_not_stop_fetch :
    (youtube_publish_date none none [] "https://youtu.be/abcdefgh").fetched = true ∧
    (youtube_publish_date none none [] "https://youtu.be/abcdefgh").cache =
      [("https://www.youtube.com/watch?v=abcdefgh", "")] ∧
    (youtube_publish_date none none [("https://www.youtube.com/watch?v=abcdefgh", "")]
        "https://youtu.be/abcdefgh").fetched = true := by decide

/-! ## C6: the identity key -/

/-- C6 (counterexample): a LinkedIn record *with* a link gets the plain
4-tuple key — the date is appended only when the normalised link is empty, so
the claim's "every LinkedIn/Instagram record's key includes the date" fails. -/
theorem C6_counterexample :
    sLower (pyStripS itC6.channel) = "linkedin" ∧
    dedup_key itC6 = ⟨"linkedin", "Post", "t", "x", none⟩ ∧
    (dedup_key itC6).dateExt = none := by decide

/-- C6 (amended): the key is `(channel, type, title, normalized-link)` with
the resolved date appended exactly when the normalised link is empty and the
title is empty or the channel is LinkedIn/Instagram; records agreeing on the
whole key merge into a single entry. -/
theorem C6_key_characterization (it : Record) :
    (normLinkOf it = "" ∧ (pyStripS it.title = "" ∨ truncChan it) →
      dedup_key it =
        ⟨pyStripS it.channel, pyStripS it.type, pyStripS it.title, normLinkOf it,
          some it.date_iso⟩) ∧
    (¬ (normLinkOf it = "" ∧ (pyStripS it.title = "" ∨ truncChan it)) →
      dedup_key it =
        ⟨pyStripS it.channel, pyStripS it.type, pyStripS it.title, normLinkOf it, none⟩) ∧
    ∀ r2 : Record, dedup_key it = dedup_key r2 →
      (insertRow (insertRow [] it) r2).length = 1 := by
  refine ⟨?_, ?_, fun r2 h => insert_collision_single it r2 h⟩
  · rintro ⟨h1, h2⟩
    by_cases ht : pyStripS it.title = ""
    · simp [dedup_key, h1, ht]
    · have h2 : truncChan it := h2.resolve_left ht
      simp [dedup_key, h1, ht, h2]
  · intro h
    by_cases hn : normLinkOf it = ""
    · have h2 := not_and.mp h hn
      rw [not_or] at h2
      simp [dedup_key, hn, h2.1, h2.2]
    · simp [dedup_key, hn]

/-- C6 (witness): a linkless LinkedIn record gets the dated key, the linked
one the plain key, and key-equal records collapse to one entry. -/
theorem C6_witness :
    dedup_key itC6w =
      ⟨pyStripS itC6w.channel, pyStripS itC6w.type, pyStripS itC6w.title, normLinkOf itC6w,
        some itC6w.date_iso⟩ ∧
    dedup_key itC6 =
      ⟨pyStripS itC6.channel, pyStripS itC6.type, pyStripS itC6.title, normLinkOf itC6, none⟩ ∧
    (insertRow (insertRow [] itC6w) itC6w).length = 1 :=
  ⟨(C6_key_characterization itC6w).1 ⟨by decide, Or.inr (by decide)⟩,
   (C6_key_characterization itC6).2.1 (by decide),
   (C6_key_characterization itC6w).2.2 itC6w rfl⟩

/-! ## C10: empty-identity records -/

/-- C10 (counterexample): a record with an empty title and a *non-empty*,
non-normalisable link keeps that raw link in its key — it does not receive
the `(channel, type, "", "", "")` key the claim asserts. -/
theorem C10_counterexample :
    normalize_youtube_url itC10.link = none ∧
    pyStripS itC10.title = "" ∧
    ¬ itC10.link = "" ∧
    dedup_key itC10 = ⟨"fhc", "Webinar", "", "xyz", none⟩ ∧
    ¬ dedup_key itC10 = ⟨"fhc", "Webinar", "", "", some ""⟩ := by decide

/-- C10 (amended): records with an empty title, an *empty* link and no
resolved date all get the key `(channel, type, "", "", "")`, so any two such
records of the same channel and type collide and collapse to a single
surviving record even if they are distinct events. -/
theorem C10_empty_identity_collapse (r1 r2 : Record)
    (h1t : pyStripS r1.title = "") (h1l : pyStripS r1.link = "") (h1d : r1.date_iso = "")
    (h2t : pyStripS r2.title = "") (h2l : pyStripS r2.link = "") (h2d : r2.date_iso = "")
    (hch : pyStripS r1.channel = pyStripS r2.channel)
    (hty : pyStripS r1.type = pyStripS r2.type) :
    dedup_key r1 = ⟨pyStripS r1.channel, pyStripS r1.type, "", "", some ""⟩ ∧
    dedup_key r1 = dedup_key r2 ∧
    (insertRow (insertRow [] r1) r2).length = 1 := by
  have k1 : dedup_key r1 = ⟨pyStripS r1.channel, pyStripS r1.type, "", "", some ""⟩ := by
    simp [dedup_key, normLinkOf, h1l, h1t, h1d]
  have k2 : dedup_key r2 = ⟨pyStripS r2.channel, pyStripS r2.type, "", "", some ""⟩ := by
    simp [dedup_key, normLinkOf, h2l, h2t, h2d]
  have keq : dedup_key r1 = dedup_key r2 := by rw [k1, k2, hch, hty]
  exact ⟨k1, keq, insert_collision_single r1 r2 keq⟩

/-- C10 (witness): two distinct FHC webinar rows with empty titles, links and
dates collapse to one record. -/
theorem C10_witness :
    dedup_key r1C10 = ⟨pyStripS r1C10.channel, pyStripS r1C10.type, "", "", some ""⟩ ∧
    dedup_key r1C10 = dedup_key r2C10 ∧
    (insertRow (insertRow [] r1C10) r2C10).length = 1 :=
  C10_empty_identity_collapse r1C10 r2C10 (by decide) (by decide) (by decide) (by decide)
    (by decide) (by decide) (by decide) (by decide)

/-- The candidate scan only ever returns its incoming accumulator or an entry
of the scanned list that satisfies `candOk`. -/
theorem findBestAux_from (ch ct ity : String) (removed : List DKey) :
    ∀ (l : List (DKey × Record)) (acc : Option (DKey × Record)) (p : DKey × Record),
      findBestAux ch ct ity removed acc l = some p →
      acc = some p ∨ (p ∈ l ∧ candOk removed ch ct p.1 p.2) := by
  intro l
  induction l with
  | nil =>
    intro acc p h
    left
    simpa [findBestAux] using h
  | cons kv rest ih =>
    intro acc p h
    cases acc with
    | none =>
      by_cases hc : candOk removed ch ct kv.1 kv.2
      · simp only [findBestAux, if_pos hc] at h
        rcases ih _ _ h with h1 | h2
        · right
          have hp : p = kv := (Option.some_inj.mp h1).symm
          rw [hp]
          exact ⟨List.mem_cons_self _ _, hc⟩
        · right; exact ⟨List.mem_cons_of_mem _ h2.1, h2.2⟩
      · simp only [findBestAux, if_neg hc] at h
        rcases ih _ _ h with h1 | h2
        · left; exact h1
        · right; exact ⟨List.mem_cons_of_mem _ h2.1, h2.2⟩
    | some b =>
      by_cases hc : candOk removed ch ct kv.1 kv.2
      · by_cases ht : kv.2.type = ity ∧ ¬ b.2.type = ity
        · simp only [findBestAux, if_pos hc, if_pos ht] at h
          rcases ih _ _ h with h1 | h2
          · right
            have hp : p = kv := (Option.some_inj.mp h1).symm
            rw [hp]
            exact ⟨List.mem_cons_self _ _, hc⟩
          · right; exact ⟨List.mem_cons_of_mem _ h2.1, h2.2⟩
        · simp only [findBestAux, if_pos hc, if_neg ht] at h
          rcases ih _ _ h with h1 | h2
          · left; exact h1
          · right; exact ⟨List.mem_cons_of_mem _ h2.1, h2.2⟩
      · simp only [findBestAux, if_neg hc] at h
        rcases ih _ _ h with h1 | h2
        · left; exact h1
        · right; exact ⟨List.mem_cons_of_mem _ h2.1, h2.2⟩

/-- C4 (amended): the candidate scan matches an entry only if it is one of
the scanned properly-dated entries, not yet removed, of the same (stripped,
lowered) channel, with cleaned titles both at least 8 characters long that
agree on their first `min(shorter-length, 10)` characters — i.e. at least 10
shared characters, except that titles of cleaned length 8 or 9 match on the
full shorter length; and the properly-dated snapshot holds exactly the map
entries whose tier is provided or youtube_publish. -/
theorem C4_match_conditions (dated : List (DKey × Record)) (removed : List DKey)
    (ch ct ity : String) (bk : DKey) (best : Record)
    (hf : findBestAux ch ct ity removed none dated = some (bk, best)) :
    ((bk, best) ∈ dated ∧
      ¬ bk ∈ removed ∧
      sLower (pyStripS best.channel) = ch ∧
      ¬ clean_title best.title = "" ∧
      8 ≤ (clean_title best.title).length ∧
      8 ≤ min ct.length (clean_title best.title).length ∧
      strTake ct (min (min ct.length (clean_title best.title).length) 10) =
        strTake (clean_title best.title)
          (min (min ct.length (clean_title best.title).length) 10)) ∧
    ∀ (m : List (DKey × Record)) (kv : DKey × Record), kv ∈ properlyDated m →
      kv ∈ m ∧ (kv.2.date_source = "provided" ∨ kv.2.date_source = "youtube_publish") := by
  constructor
  · rcases findBestAux_from ch ct ity removed dated none (bk, best) hf with h1 | h2
    · exact absurd h1 (by simp)
    · obtain ⟨hm, hc⟩ := h2
      obtain ⟨c1, c2, c3, c4, c5, c6⟩ := hc
      exact ⟨hm, c1, c2, c3, Nat.not_lt.mp c4, Nat.not_lt.mp c5, c6⟩
  · intro m kv hkv
    have := List.mem_filter.mp hkv
    refine ⟨this.1, ?_⟩
    have h2 := this.2
    simp only [Bool.or_eq_true, beq_iff_eq] at h2
    exact h2

/-- C4 (witness): the scan accepts `candC4` for `infC4` (8-character cleaned
titles), and every condition of the amended claim holds there. -/
theorem C4_witness :
    (((dedup_key candC4, candC4) ∈ [(dedup_key candC4, candC4)] ∧
      ¬ dedup_key candC4 ∈ ([] : List DKey) ∧
      sLower (pyStripS candC4.channel) =
        sLower (pyStripS infC4.channel) ∧
      ¬ clean_title candC4.title = "" ∧
      8 ≤ (clean_title candC4.title).length ∧
      8 ≤ min (clean_title (pyStripS infC4.title)).length (clean_title candC4.title).length ∧
      strTake (clean_title (pyStripS infC4.title))
          (min (min (clean_title (pyStripS infC4.title)).length
            (clean_title candC4.title).length) 10) =
        strTake (clean_title candC4.title)
          (min (min (clean_title (pyStripS infC4.title)).length
            (clean_title candC4.title).length) 10)) ∧
    ∀ (m : List (DKey × Record)) (kv : DKey × Record), kv ∈ properlyDated m →
      kv ∈ m ∧ (kv.2.date_source = "provided" ∨ kv.2.date_source = "youtube_publish")) :=
  C4_match_conditions [(dedup_key candC4, candC4)] [] (sLower (pyStripS infC4.channel))
    (clean_title (pyStripS infC4.title)) infC4.type (dedup_key candC4) candC4 (by decide)

/-! ## C1: sign of parsed metrics -/

/-- The float-parse body never flips the sign flag it is given. -/
theorem pyFloatBody_finite_neg (b : Bool) (l : List Char) (neg : Bool) (m : Nat) (sc : Int)
    (h : pyFloatBody b l = some (PyFloat.finite neg m sc)) : neg = b := by
  simp only [pyFloatBody] at h
  repeat' split at h
  all_goals simp_all

/-- A finite negative float parse only arises from a leading minus sign. -/
theorem pyFloatOfChars_finite_true_head (l : List Char) (m : Nat) (sc : Int)
    (h : pyFloatOfChars l = some (PyFloat.finite true m sc)) : l.head? = some '-' := by
  cases l with
  | nil =>
    have hb := pyFloatBody_finite_neg false [] true m sc (by simpa [pyFloatOfChars] using h)
    simp at hb
  | cons c r =>
    by_cases hc : c = '-'
    · simp [hc]
    · by_cases hp : c = '+'
      · rw [pyFloatOfChars, if_neg hc, if_pos hp] at h
        have hb := pyFloatBody_finite_neg false r true m sc h
        simp at hb
      · rw [pyFloatOfChars, if_neg hc, if_neg hp] at h
        have hb := pyFloatBody_finite_neg false (c :: r) true m sc h
        simp at hb

/-- C1 (counterexample): `parse_int` passes a negative numeral straight
through, so a metric value can be a negative integer. -/
theorem C1_counterexample :
    parse_int (some "-5") = PyResult.ok (some (-5)) ∧ (-5 : Int) < 0 := by decide

/-- C1 (amended): a parsed metric is null or an integer, and it is
non-negative whenever the numeral (stripped, commas removed) does not begin
with a minus sign; a leading minus (which the claim excluded) yields a
negative integer, and an infinite value raises instead of parsing. -/
theorem C1_metric_nonneg (s : String) (n : Int)
    (hok : parse_int (some s) = PyResult.ok (some n))
    (hm : ¬ (removeCommas (pyStrip s.toList)).head? = some '-') :
    0 ≤ n := by
  simp only [parse_int] at hok
  by_cases h0 : pyStrip s.toList = [] ∨ pyStrip s.toList = emDash
  · rw [if_pos h0] at hok
    simp at hok
  · rw [if_neg h0] at hok
    rcases hf : pyFloatOfChars (removeCommas (pyStrip s.toList)) with _ | pf
    · rw [hf] at hok
      simp at hok
    · rw [hf] at hok
      cases pf with
      | nan => simp at hok
      | inf b => simp at hok
      | finite neg m sc =>
        dsimp only at hok
        by_cases ho : floatOverflows m sc = true
        · rw [if_pos ho] at hok
          simp at hok
        · rw [if_neg ho] at hok
          have hv : truncDec neg m sc = n := by
            have := hok
            simp at this
            exact this
          cases neg with
          | true => exact absurd (pyFloatOfChars_finite_true_head _ _ _ hf) hm
          | false =>
            rw [← hv]
            simp only [truncDec, if_neg (by simp : ¬ (false = true))]
            exact Int.natCast_nonneg _

/-- C1 (witness): `"1,234"` parses to `1234 ≥ 0` via the amended theorem. -/
theorem C1_witness :
    parse_int (some "1,234") = PyResult.ok (some 1234) ∧ (0 : Int) ≤ 1234 :=
  ⟨by decide, C1_metric_nonneg "1,234" 1234 (by decide) (by decide)⟩

/-! ## C9: the parser re-reads its own serialisations -/

/-- Digit characters are digits. -/
theorem digitChar_isDigit {k : Nat} (hk : k < 10) : (digitChar k).isDigit = true := by
  interval_cases k <;> decide

/-- Lower-casing fixes digit characters. -/
theorem digitChar_toLower {k : Nat} (hk : k < 10) : (digitChar k).toLower = digitChar k := by
  interval_cases k <;> decide

/-- `charVal` inverts `digitChar` below 10. -/
theorem charVal_digitChar {k : Nat} (hk : k < 10) : charVal (digitChar k) = k := by
  interval_cases k <;> decide

/-- A digit character is none of the special characters the parsers inspect. -/
theorem digitChar_not_special {k : Nat} (hk : k < 10) :
    ¬ digitChar k = 'e' ∧ ¬ digitChar k = 'E' ∧ ¬ digitChar k = '.' ∧
    ¬ digitChar k = '_' ∧ ¬ digitChar k = ',' ∧ ¬ digitChar k = '-' ∧
    ¬ digitChar k = '+' ∧ (digitChar k).isWhitespace = false ∧ ¬ digitChar k = '—' ∧
    ¬ (digitChar k).toLower = 'i' ∧ ¬ (digitChar k).toLower = 'n' := by
  interval_cases k <;> decide

/-- Every character `natDigsRev` emits is a digit character. -/
theorem natDigsRev_mem (fuel : Nat) :
    ∀ (n : Nat) (c : Char), c ∈ natDigsRev fuel n → ∃ k, k < 10 ∧ c = digitChar k := by
  induction fuel with
  | zero => intro n c hc; simp [natDigsRev] at hc
  | succ fuel ih =>
    intro n c hc
    rw [natDigsRev] at hc
    by_cases h : n < 10
    · rw [if_pos h] at hc
      simp at hc
      exact ⟨n, h, hc⟩
    · rw [if_neg h] at hc
      rcases List.mem_cons.mp hc with h1 | h2
      · exact ⟨n % 10, Nat.mod_lt _ (by omega), h1⟩
      · exact ih _ _ h2

/-- Every character of a decimal rendering is a digit character. -/
theorem digitsOfNat_mem (n : Nat) (c : Char) (hc : c ∈ digitsOfNat n) :
    ∃ k, k < 10 ∧ c = digitChar k :=
  natDigsRev_mem (n + 1) n c (List.mem_reverse.mp hc)

/-- A decimal rendering is never empty. -/
theorem digitsOfNat_ne_nil (n : Nat) : digitsOfNat n ≠ [] := by
  unfold digitsOfNat
  rw [natDigsRev]
  split <;> simp

/-- `dropWhile` is the identity when no element satisfies the predicate. -/
theorem dropWhile_all_false (p : Char → Bool) (l : List Char)
    (h : ∀ c ∈ l, p c = false) : l.dropWhile p = l := by
  cases l with
  | nil => rfl
  | cons c r => rw [List.dropWhile_cons, h c (List.mem_cons_self _ _)]; simp

/-- Stripping is the identity on whitespace-free text. -/
theorem pyStrip_eq_self (l : List Char) (h : ∀ c ∈ l, c.isWhitespace = false) :
    pyStrip l = l := by
  unfold pyStrip
  rw [dropWhile_all_false _ _ h,
    dropWhile_all_false _ _ (fun c hc => h c (List.mem_reverse.mp hc)), List.reverse_reverse]

/-- Comma removal is the identity on comma-free text. -/
theorem removeCommas_eq_self (l : List Char) (h : ∀ c ∈ l, ¬ c = ',') :
    removeCommas l = l :=
  List.filter_eq_self.mpr (fun c hc => by simpa using h c hc)

/-- `splitOnExp` passes an exponent-free list through. -/
theorem splitOnExp_eq_self (l : List Char) (h : ∀ c ∈ l, ¬ c = 'e' ∧ ¬ c = 'E') :
    splitOnExp l = (l, none) := by
  induction l with
  | nil => rfl
  | cons c cs ih =>
    have hc := h c (List.mem_cons_self _ _)
    rw [splitOnExp, if_neg (by simp [hc.1, hc.2])]
    simp [ih (fun d hd => h d (List.mem_cons_of_mem _ hd))]

/-- `splitOnDot` passes a dot-free list through. -/
theorem splitOnDot_eq_self (l : List Char) (h : ∀ c ∈ l, ¬ c = '.') :
    splitOnDot l = (l, none) := by
  induction l with
  | nil => rfl
  | cons c cs ih =>
    have hc := h c (List.mem_cons_self _ _)
    rw [splitOnDot, if_neg hc]
    simp [ih (fun d hd => h d (List.mem_cons_of_mem _ hd))]

/-- A digit run over an all-digit list is accepted, with the folded value and
the digit count. -/
theorem digRunAux_digits (l : List Char) (h : ∀ c ∈ l, c.isDigit = true) :
    ∀ acc cnt, digRunAux acc cnt l =
      some (l.foldl (fun a c => a * 10 + charVal c) acc, cnt + l.length) := by
  induction l with
  | nil => intro acc cnt; simp [digRunAux]
  | cons c cs ih =>
    intro acc cnt
    rw [digRunAux.eq_def]
    dsimp only
    rw [if_pos (h c (List.mem_cons_self _ _))]
    rw [ih (fun d hd => h d (List.mem_cons_of_mem _ hd))]
    simp [Nat.add_comm, Nat.add_assoc, Nat.add_left_comm]

/-- `digRun` on a non-empty all-digit list. -/
theorem digRun_digits (l : List Char) (hne : l ≠ []) (h : ∀ c ∈ l, c.isDigit = true) :
    digRun l = some (l.foldl (fun a c => a * 10 + charVal c) 0, l.length) := by
  cases l with
  | nil => exact absurd rfl hne
  | cons c cs =>
    rw [digRun.eq_def]
    dsimp only
    rw [if_pos (h c (List.mem_cons_self _ _))]
    rw [digRunAux_digits cs (fun d hd => h d (List.mem_cons_of_mem _ hd))]
    simp [Nat.add_comm]

/-- Folding the digit-evaluation over a reversed rendering reconstructs the
number (with the accumulator shifted by the digit count). -/
theorem foldl_natDigsRev (fuel : Nat) :
    ∀ (n acc : Nat), n < 10 ^ fuel →
      (natDigsRev fuel n).reverse.foldl (fun a c => a * 10 + charVal c) acc =
        acc * 10 ^ (natDigsRev fuel n).length + n := by
  induction fuel with
  | zero =>
    intro n acc hn
    have : n = 0 := by omega
    subst this
    simp [natDigsRev]
  | succ fuel ih =>
    intro n acc hn
    rw [natDigsRev]
    by_cases h : n < 10
    · rw [if_pos h]
      simp [charVal_digitChar h]
    · rw [if_neg h]
      have hdiv : n / 10 < 10 ^ fuel := by
        rw [Nat.div_lt_iff_lt_mul (by norm_num)]
        calc n < 10 ^ (fuel + 1) := hn
        _ = 10 ^ fuel * 10 := by ring
      rw [List.reverse_cons, List.foldl_append]
      rw [ih (n / 10) acc hdiv]
      simp only [List.foldl_cons, List.foldl_nil, List.length_cons]
      rw [charVal_digitChar (Nat.mod_lt _ (by omega))]
      have hmod := Nat.div_add_mod n 10
      ring_nf
      omega

/-- Every natural is below `10 ^ (n + 1)`. -/
theorem lt_ten_pow_succ (n : Nat) : n < 10 ^ (n + 1) :=
  lt_of_lt_of_le (Nat.lt_two_pow n)
    (le_trans (Nat.pow_le_pow_left (by norm_num) n) (Nat.pow_le_pow_right (by norm_num) (by omega)))

/-- The fold over a decimal rendering evaluates to the rendered number. -/
theorem foldl_digitsOfNat (n : Nat) :
    (digitsOfNat n).foldl (fun a c => a * 10 + charVal c) 0 = n := by
  have := foldl_natDigsRev (n + 1) n 0 (lt_ten_pow_succ n)
  simpa [digitsOfNat] using this

/-- The mantissa parser reads a decimal rendering as the rendered number with
no fraction digits. -/
theorem parseMantissa_digitsOfNat (n : Nat) :
    parseMantissa (digitsOfNat n) = some (n, 0) := by
  have hdots : splitOnDot (digitsOfNat n) = (digitsOfNat n, none) := by
    refine splitOnDot_eq_self _ (fun c hc => ?_)
    obtain ⟨k, hk, rfl⟩ := digitsOfNat_mem n c hc
    exact (digitChar_not_special hk).2.2.1
  have hdig : ∀ c ∈ digitsOfNat n, c.isDigit = true := fun c hc => by
    obtain ⟨k, hk, rfl⟩ := digitsOfNat_mem n c hc
    exact digitChar_isDigit hk
  have hlen : 0 < (digitsOfNat n).length :=
    List.length_pos.mpr (digitsOfNat_ne_nil n)
  have hlen0 : ¬ ((digitsOfNat n).length + 0 = 0) := by omega
  simp only [parseMantissa, hdots, if_neg (digitsOfNat_ne_nil n)]
  rw [digRun_digits _ (digitsOfNat_ne_nil n) hdig, foldl_digitsOfNat n]
  dsimp only
  rw [if_neg hlen0]
  simp

/-- The lowered rendering of a number is never one of the float keywords. -/
theorem digitsOfNat_not_keyword (n : Nat) :
    ¬ (digitsOfNat n).map Char.toLower = ['i', 'n', 'f'] ∧
    ¬ (digitsOfNat n).map Char.toLower = ['i', 'n', 'f', 'i', 'n', 'i', 't', 'y'] ∧
    ¬ (digitsOfNat n).map Char.toLower = ['n', 'a', 'n'] := by
  obtain ⟨c, rest, hcr⟩ : ∃ c rest, digitsOfNat n = c :: rest := by
    cases hd : digitsOfNat n with
    | nil => exact absurd hd (digitsOfNat_ne_nil n)
    | cons c rest => exact ⟨c, rest, rfl⟩
  obtain ⟨k, hk, hck⟩ := digitsOfNat_mem n c (hcr ▸ List.mem_cons_self _ _)
  have hfacts := digitChar_not_special hk
  rw [hcr, hck]
  refine ⟨?_, ?_, ?_⟩ <;> intro heq <;> rw [List.map_cons] at heq <;>
    injection heq with h1 h2
  · exact hfacts.2.2.2.2.2.2.2.2.2.1 h1
  · exact hfacts.2.2.2.2.2.2.2.2.2.1 h1
  · exact hfacts.2.2.2.2.2.2.2.2.2.2 h1

/-- The float-parse body reads a decimal rendering as a finite value with
scale 0 and the given sign. -/
theorem pyFloatBody_digitsOfNat (b : Bool) (n : Nat) :
    pyFloatBody b (digitsOfNat n) = some (PyFloat.finite b n 0) := by
  have hkw := digitsOfNat_not_keyword n
  have hexp : splitOnExp (digitsOfNat n) = (digitsOfNat n, none) := by
    refine splitOnExp_eq_self _ (fun c hc => ?_)
    obtain ⟨k, hk, rfl⟩ := digitsOfNat_mem n c hc
    exact ⟨(digitChar_not_special hk).1, (digitChar_not_special hk).2.1⟩
  simp only [pyFloatBody, hexp]
  rw [if_neg (by simp [hkw.1, hkw.2.1]), if_neg (by simp [hkw.2.2])]
  rw [parseMantissa_digitsOfNat n]
  simp

/-- No character of a decimal rendering is a sign character. -/
theorem digitsOfNat_head_not_sign (n : Nat) (c : Char) (rest : List Char)
    (hcr : digitsOfNat n = c :: rest) : ¬ c = '-' ∧ ¬ c = '+' := by
  obtain ⟨k, hk, hck⟩ := digitsOfNat_mem n c (hcr ▸ List.mem_cons_self _ _)
  rw [hck]
  exact ⟨(digitChar_not_special hk).2.2.2.2.2.1, (digitChar_not_special hk).2.2.2.2.2.2.1⟩

/-- The full float parser on a decimal rendering. -/
theorem pyFloatOfChars_digitsOfNat (n : Nat) :
    pyFloatOfChars (digitsOfNat n) = some (PyFloat.finite false n 0) := by
  obtain ⟨c, rest, hcr⟩ : ∃ c rest, digitsOfNat n = c :: rest := by
    cases hd : digitsOfNat n with
    | nil => exact absurd hd (digitsOfNat_ne_nil n)
    | cons c rest => exact ⟨c, rest, rfl⟩
  obtain ⟨hm, hp⟩ := digitsOfNat_head_not_sign n c rest hcr
  rw [hcr, pyFloatOfChars, if_neg hm, if_neg hp, ← hcr, pyFloatBody_digitsOfNat]

/-- The full float parser on a minus-signed decimal rendering. -/
theorem pyFloatOfChars_neg_digitsOfNat (n : Nat) :
    pyFloatOfChars ('-' :: digitsOfNat n) = some (PyFloat.finite true n 0) := by
  rw [pyFloatOfChars, if_pos rfl, pyFloatBody_digitsOfNat]

/-- At scale 0 a mantissa below the overflow threshold does not overflow. -/
theorem floatOverflows_zero_scale (m : Nat) (h : m < FLOAT_OVERFLOW_T) :
    floatOverflows m 0 = false := by
  by_cases hm : m = 0
  · simp [floatOverflows, hm]
  · simp only [floatOverflows, if_neg hm]
    rw [if_neg (by norm_num), if_pos (by norm_num)]
    simpa using h

/-- At scale 0 truncation returns the mantissa. -/
theorem truncMag_zero_scale (m : Nat) : truncMag m 0 = m := by
  simp [truncMag]

/-- A value `parse_int` accepts is the truncation of a non-overflowing finite
float parse of the stripped, comma-free text. -/
theorem parse_int_ok_inv (s : String) (n : Int)
    (h : parse_int (some s) = PyResult.ok (some n)) :
    ∃ neg m sc,
      pyFloatOfChars (removeCommas (pyStrip s.toList)) = some (PyFloat.finite neg m sc) ∧
      floatOverflows m sc = false ∧ truncDec neg m sc = n := by
  simp only [parse_int] at h
  by_cases h0 : pyStrip s.toList = [] ∨ pyStrip s.toList = emDash
  · rw [if_pos h0] at h
    simp at h
  · rw [if_neg h0] at h
    rcases hf : pyFloatOfChars (removeCommas (pyStrip s.toList)) with _ | pf <;> rw [hf] at h
    · simp at h
    · cases pf with
      | nan => simp at h
      | inf b => simp at h
      | finite neg m sc =>
        dsimp only at h
        by_cases ho : floatOverflows m sc = true
        · rw [if_pos ho] at h
          simp at h
        · rw [if_neg ho] at h
          simp only [PyResult.ok.injEq, Option.some.injEq] at h
          exact ⟨neg, m, sc, rfl, by simpa using ho, h⟩

/-- The magnitude of a non-overflowing truncation stays below the threshold. -/
theorem truncMag_lt_of_not_overflow (m : Nat) (sc : Int)
    (h : floatOverflows m sc = false) : truncMag m sc < FLOAT_OVERFLOW_T := by
  have hT : 0 < FLOAT_OVERFLOW_T := by
    have : (2 : Nat) ^ 970 < 2 ^ 1024 := Nat.pow_lt_pow_right (by norm_num) (by norm_num)
    exact Nat.sub_pos_of_lt this
  by_cases hm : m = 0
  · subst hm
    unfold truncMag
    split <;> simpa using hT
  · simp only [floatOverflows, if_neg hm] at h
    by_cases h309 : (309 : Int) ≤ sc
    · rw [if_pos h309] at h
      cases h
    · rw [if_neg h309] at h
      by_cases hpos : (0 : Int) ≤ sc
      · rw [if_pos hpos] at h
        simp only [decide_eq_false_iff_not, Nat.not_le] at h
        simpa [truncMag, hpos] using h
      · rw [if_neg hpos] at h
        simp only [decide_eq_false_iff_not, Nat.not_le] at h
        rw [truncMag, if_neg hpos]
        rw [Nat.div_lt_iff_lt_mul (Nat.pos_pow_of_pos _ (by norm_num))]
        calc m < FLOAT_OVERFLOW_T * 10 ^ (-sc).toNat := h
        _ = FLOAT_OVERFLOW_T * 10 ^ (-sc).toNat := rfl

/-- Any integer `parse_int` returns has magnitude below the overflow
threshold. -/
theorem parse_int_ok_bound (s : String) (n : Int)
    (h : parse_int (some s) = PyResult.ok (some n)) :
    n.natAbs < FLOAT_OVERFLOW_T := by
  obtain ⟨neg, m, sc, hf, ho, hv⟩ := parse_int_ok_inv s n h
  have habs : n.natAbs = truncMag m sc := by
    rw [← hv]
    cases neg <;> simp [truncDec]
  rw [habs]
  exact truncMag_lt_of_not_overflow m sc ho

/-- Re-parsing the decimal rendering of any integer below the overflow
threshold returns that integer. -/
theorem parse_int_pyStrOfInt (x : Int) (hb : x.natAbs < FLOAT_OVERFLOW_T) :
    parse_int (some (pyStrOfInt x)) = PyResult.ok (some x) := by
  have hlist : (pyStrOfInt x).toList = intChars x := rfl
  have hmem : ∀ c ∈ intChars x, (∃ k, k < 10 ∧ c = digitChar k) ∨ c = '-' := by
    intro c hc
    unfold intChars at hc
    by_cases hx : x < 0
    · rw [if_pos hx] at hc
      rcases List.mem_cons.mp hc with h1 | h2
      · exact Or.inr h1
      · exact Or.inl (digitsOfNat_mem _ c h2)
    · rw [if_neg hx] at hc
      exact Or.inl (digitsOfNat_mem _ c hc)
  have hstrip : pyStrip (intChars x) = intChars x := by
    refine pyStrip_eq_self _ (fun c hc => ?_)
    rcases hmem c hc with ⟨k, hk, rfl⟩ | rfl
    · exact (digitChar_not_special hk).2.2.2.2.2.2.2.1
    · decide
  have hcommas : removeCommas (intChars x) = intChars x := by
    refine removeCommas_eq_self _ (fun c hc => ?_)
    rcases hmem c hc with ⟨k, hk, rfl⟩ | rfl
    · exact (digitChar_not_special hk).2.2.2.2.1
    · decide
  have hne : ¬ (intChars x = [] ∨ intChars x = emDash) := by
    rintro (h1 | h1)
    · unfold intChars at h1
      by_cases hx : x < 0
      · rw [if_pos hx] at h1
        cases h1
      · rw [if_neg hx] at h1
        exact digitsOfNat_ne_nil _ h1
    · unfold intChars at h1
      by_cases hx : x < 0
      · rw [if_pos hx] at h1
        unfold emDash at h1
        injection h1 with hh _
        cases hh
      · rw [if_neg hx] at h1
        obtain ⟨c, rest, hcr⟩ : ∃ c rest, digitsOfNat x.natAbs = c :: rest := by
          cases hd : digitsOfNat x.natAbs with
          | nil => exact absurd hd (digitsOfNat_ne_nil _)
          | cons c rest => exact ⟨c, rest, rfl⟩
        rw [hcr] at h1
        unfold emDash at h1
        injection h1 with hh ht
        obtain ⟨k, hk, hck⟩ := digitsOfNat_mem _ c (hcr ▸ List.mem_cons_self _ _)
        rw [hck] at hh
        exact (digitChar_not_special hk).2.2.2.2.2.2.2.2.1 hh
  simp only [parse_int, hlist, hstrip, hcommas]
  rw [if_neg hne]
  by_cases hx : x < 0
  · have hch : intChars x = '-' :: digitsOfNat x.natAbs := if_pos hx
    rw [hch, pyFloatOfChars_neg_digitsOfNat]
    dsimp only
    rw [if_neg (by simp [floatOverflows_zero_scale _ hb])]
    have hv : truncDec true x.natAbs 0 = x := by
      rw [truncDec, if_pos rfl, truncMag_zero_scale]
      omega
    rw [hv]
  · have hch : intChars x = digitsOfNat x.natAbs := if_neg hx
    rw [hch, pyFloatOfChars_digitsOfNat]
    dsimp only
    rw [if_neg (by simp [floatOverflows_zero_scale _ hb])]
    have hv : truncDec false x.natAbs 0 = x := by
      rw [truncDec, if_neg (by decide : ¬ (false = true)), truncMag_zero_scale]
      omega
    rw [hv]

/-- C9: `parse_int` is idempotent on serialised values — whenever it returns
an integer `n`, re-parsing `str(n)` returns the same `n`. -/
theorem C9_reparse_roundtrip (s : String) (n : Int)
    (h : parse_int (some s) = PyResult.ok (some n)) :
    parse_int (some (pyStrOfInt n)) = PyResult.ok (some n) :=
  parse_int_pyStrOfInt n (parse_int_ok_bound s n h)

/-- C9 (witness): `"42"` parses to `42`, and re-parsing its rendering gives
`42` again via the round-trip theorem. -/
theorem C9_witness :
    parse_int (some "42") = PyResult.ok (some 42) ∧
    parse_int (some (pyStrOfInt 42)) = PyResult.ok (some 42) :=
  ⟨by decide, C9_reparse_roundtrip "42" 42 (by decide)⟩
